import Mathlib

/-!
# Kaplan-Authoring document session coordinator — shallow embedding

This file embeds the client-side document session coordinator of the
Kaplan-Authoring frontend (`apps/frontend/src/routes/App.tsx`, with the older
variant of the same component embedded in `apps/frontend/src/services/files.ts`)
and proves properties of its open/edit/save/close/bus-message flows.

Modelling conventions:
* The React `docs` state array is a `List OpenDoc`; `localStorage` keys
  `lock:<path>` form the token cache, modelled as an association list.
* Network responses (`lockinfo`, `lock`, `GET content`, `PUT content`,
  `unlock`) are inputs to each operation; a failed awaited call is modelled
  by the corresponding `Option`/`Bool` input, and the operation returns the
  state reached when the exception aborts the remaining statements.
* Side-effecting requests the code issues (the `PUT`, the bus publish, the
  `sendBeacon` unlock, the `lock` acquire) are returned as explicit effect
  fields so theorems can speak about them.
-/

namespace Kaplan

/-- Language classification, from `lib/text.ts` (`type Lang`). -/
inductive Lang where
  | xml
  | html
  | json
  | text
deriving DecidableEq, Repr

/-- Source `detectLang` from `lib/text.ts`: classify a path by its (lowercased)
extension. -/
def detectLang (path : String) : Lang :=
  let p := path.toLower
  if p.endsWith ".dita" || p.endsWith ".ditamap" || p.endsWith ".xml" then .xml
  else if p.endsWith ".html" || p.endsWith ".htm" then .html
  else if p.endsWith ".json" || p.endsWith "work.json" then .json
  else .text

/-- Drop a leading run of slash characters (helper for the URL cleanup
regex). -/
def dropSlashes : List Char → List Char
  | [] => []
  | c :: rest => if c = '/' then dropSlashes rest else c :: rest

theorem dropSlashes_length_le (l : List Char) : (dropSlashes l).length ≤ l.length := by
  induction l with
  | nil => simp [dropSlashes]
  | cons c rest ih =>
    by_cases h : c = '/'
    · simp only [dropSlashes, if_pos h]
      exact Nat.le_trans ih (Nat.le_succ _)
    · simp [dropSlashes, h]

/-- The global-replace `s.replace(/([^:])\/+/g, '$1/')` used on tab URLs:
a non-colon character followed by a run of slashes keeps a single slash. -/
def collapseSlashes : List Char → List Char
  | [] => []
  | [c] => [c]
  | c :: '/' :: rest =>
    if c ≠ ':' then c :: '/' :: collapseSlashes (dropSlashes rest)
    else c :: collapseSlashes ('/' :: rest)
  | c :: d :: rest => c :: collapseSlashes (d :: rest)
termination_by l => l.length
decreasing_by
  · simp only [List.length_cons]
    have := dropSlashes_length_le rest
    omega
  · simp
  · simp

/-- Clean up a tab URL the way `openInTab` does. -/
def collapseUrl (s : String) : String :=
  String.mk (collapseSlashes s.toList)

/-- Source `path.split('/').pop() || path` from `openInTab` (an empty last segment
is falsy in JS, so the whole path is used instead). -/
def docName (path : String) : String :=
  match (path.splitOn "/").getLast? with
  | some s => if s = "" then path else s
  | none => path

end Kaplan

namespace Kaplan

/-- One open document tab (`type OpenDoc` in `App.tsx`); the optional JS
fields `dirty`/`readOnly`/`stale` default to `false` and `lockToken` to
`none`. -/
structure OpenDoc where
  path : String
  name : String
  text : String
  lang : Lang
  url : String
  dirty : Bool
  lockToken : Option String
  readOnly : Bool
  stale : Bool
deriving DecidableEq, Repr

/-- The lock dialog state (`type LockDialog`); the source field `open` is
called `isOpen` here because `open` is a Lean keyword. -/
structure LockDialog where
  isOpen : Bool
  path : String
  owner : Option String
deriving DecidableEq, Repr

/-- A cross-tab bus message (`type BCMessage`); the only message type is
`file-saved`, so the `type` tag is left implicit.  The source field `by`
is called `who` here because `by` is a Lean keyword. -/
structure BCMessage where
  path : String
  who : String
  time : Nat
deriving DecidableEq, Repr

/-- A `PUT /files/content` request as issued by `putFile`. -/
structure WriteReq where
  path : String
  body : String
  contentType : String
  lockToken : Option String
deriving DecidableEq, Repr

/-- Response of `GET /files/lockinfo` (`lockInfo` in `services/files.ts`). -/
structure LockInfoResp where
  locked : Bool
  owner : Option String
  token : Option String
deriving DecidableEq, Repr

/-- Response of `POST /files/lock` (`lockPath` in `services/files.ts`). -/
structure LockResp where
  token : String
  owner : String
  timeout : Nat
deriving DecidableEq, Repr

/-- The per-tab coordinator state: the React `docs`/`activePath`/`lockDlg`
state plus the persisted `localStorage` token cache (keys `lock:<path>`). -/
structure AppState where
  baseUrl : String
  docs : List OpenDoc
  activePath : Option String
  lockDlg : LockDialog
  tokenCache : List (String × String)
deriving DecidableEq, Repr

/-- The tab's fixed user identity (`const CURRENT_USER_ID = 'ARajuv'`). -/
def CURRENT_USER_ID : String := "ARajuv"

/-- Initial state of a freshly started tab: no docs, no active path, dialog
closed; `baseUrl` starts empty and is filled by `getBase()`. -/
def initState (cache : List (String × String)) : AppState :=
  { baseUrl := ""
    docs := []
    activePath := none
    lockDlg := { isOpen := false, path := "", owner := none }
    tokenCache := cache }

/-- Source `readSavedToken`: `localStorage.getItem('lock:' + path)`. -/
def readSavedToken (cache : List (String × String)) (path : String) : Option String :=
  (cache.find? (fun e => e.1 == path)).map (fun e => e.2)

/-- Source `writeSavedToken`: `localStorage.setItem('lock:' + path, token)`. -/
def writeSavedToken (cache : List (String × String)) (path token : String) :
    List (String × String) :=
  (path, token) :: cache.filter (fun e => e.1 != path)

/-- Source `clearSavedToken`: `localStorage.removeItem('lock:' + path)`. -/
def clearSavedToken (cache : List (String × String)) (path : String) :
    List (String × String) :=
  cache.filter (fun e => e.1 != path)

/-- The whitespace characters of JS `String.prototype.trim` (the ASCII
ones; the exotic Unicode space code points are not modelled). -/
def isJsSpace (c : Char) : Bool :=
  c == ' ' || c == '\t' || c == '\n' || c == '\r' || c == '\x0b' || c == '\x0c'

/-- JS `s.trim()`: drop leading and trailing whitespace. -/
def jsTrim (s : String) : String :=
  String.mk (((s.toList.dropWhile isJsSpace).reverse.dropWhile isJsSpace).reverse)

/-- JS `toLowerCase` on one character (ASCII range, which covers the user
identifiers involved). -/
def lowerChar (c : Char) : Char :=
  if 'A' ≤ c ∧ c ≤ 'Z' then Char.ofNat (c.toNat + 32) else c

/-- JS `s.toLowerCase()`. -/
def jsLower (s : String) : String :=
  String.mk (s.toList.map lowerChar)

/-- Source `normalizeToken`: `t ? t.replace(/[<>]/g, '').trim() : null` — a missing
or empty token maps to `null`, otherwise angle brackets are removed and
surrounding whitespace trimmed. -/
def normalizeToken : Option String → Option String
  | none => none
  | some t =>
    if t = "" then none
    else some (jsTrim (String.mk (t.toList.filter (fun c => !(c == '<' || c == '>')))))

/-- The `|| undefined` coercion applied to `normalizeToken(...)` in
`openFilePath`: an empty normalized token becomes absent. -/
def presentToken : Option String → Option String
  | none => none
  | some s => if s = "" then none else some s

/-- The `active` document: `docs.find(d => d.path === activePath) ?? docs[0]`. -/
def activeDoc (s : AppState) : Option OpenDoc :=
  let found : Option OpenDoc :=
    match s.activePath with
    | some p => s.docs.find? (fun d => d.path == p)
    | none => none
  found.orElse (fun _ => s.docs.head?)

/-- The doc-list update of `openInTab`: replace the first doc with the given
path (keeping its `name` and `stale`), or append a fresh doc.  The fresh
doc's JS literal omits `stale`, so it is `false`. -/
def openInTabDocs (docs : List OpenDoc) (path text : String) (lang : Lang)
    (name url : String) (lockToken : Option String) (readOnly : Bool) :
    List OpenDoc :=
  match docs with
  | [] => [{ path := path, name := name, text := text, lang := lang, url := url,
             dirty := false, lockToken := lockToken, readOnly := readOnly,
             stale := false }]
  | d :: ds =>
    if d.path == path then
      { d with text := text, lang := lang, url := url, dirty := false,
               lockToken := lockToken, readOnly := readOnly } :: ds
    else d :: openInTabDocs ds path text lang name url lockToken readOnly

/-- Source `openInTab(path, text, lockToken?, readOnly=false)` from `App.tsx`. -/
def openInTab (s : AppState) (path text : String) (lockToken : Option String)
    (readOnly : Bool) : AppState :=
  { s with docs := openInTabDocs s.docs path text (detectLang path)
                     (docName path) (collapseUrl (s.baseUrl ++ "/" ++ path))
                     lockToken readOnly }

/-- The owner string put in the lock dialog by `openFilePath` when the path
is locked: `You (<owner>) in another tab/window` when the (truthy) owner
matches `CURRENT_USER_ID` after trim/lowercase, else `info.owner || 'Another
user'`. -/
def ownerDisplay (owner : Option String) : String :=
  match owner with
  | some o =>
    if o ≠ "" ∧ jsLower (jsTrim o) = jsLower CURRENT_USER_ID then
      "You (" ++ o ++ ") in another tab/window"
    else if o = "" then "Another user" else o
  | none => "Another user"

/-- Result of `openFilePath`: the new state plus the `lock` acquire request
(`(path, owner)`) it issued, if any. -/
structure OpenResult where
  state : AppState
  acquired : Option (String × String)
deriving DecidableEq, Repr

/-- Source `openFilePath(path)` from `App.tsx`.  Network inputs: `info` is the
`lockInfo(path)` response, `acq` the `lockPath(path, CURRENT_USER_ID)`
response (consulted only when unlocked), `content` the `getFile(path)`
body. -/
def openFilePath (s : AppState) (path : String) (info : LockInfoResp)
    (acq : LockResp) (content : String) : OpenResult :=
  if info.locked then
    let s1 := { s with lockDlg := { isOpen := true, path := path,
                                    owner := some (ownerDisplay info.owner) } }
    let s2 := openInTab s1 path content none true
    let s3 := { s2 with activePath := some path }
    { state := { s3 with tokenCache := clearSavedToken s3.tokenCache path }
      acquired := none }
  else
    let token := presentToken (normalizeToken (some acq.token))
    let s1 := match token with
      | some t => { s with tokenCache := writeSavedToken s.tokenCache path t }
      | none => s
    let s2 := openInTab s1 path content token false
    { state := { s2 with activePath := some path }
      acquired := some (path, CURRENT_USER_ID) }

/-- Source `setDocText(path, text)` from `App.tsx` (wired to the editor's
`onChange`): set the text and mark dirty on every doc with that path. -/
def setDocText (s : AppState) (path text : String) : AppState :=
  { s with docs := s.docs.map (fun d =>
      if d.path == path then { d with text := text, dirty := true } else d) }

/-- Source `setActiveText(val)` from the `App` variant in `services/files.ts`:
no-op when there is no active doc or it is read-only, else set the text and
mark dirty on the active path. -/
def setActiveText (s : AppState) (val : String) : AppState :=
  match activeDoc s with
  | none => s
  | some a =>
    if a.readOnly then s
    else { s with docs := s.docs.map (fun d =>
        if d.path == a.path then { d with text := val, dirty := true } else d) }

/-- Result of `saveActive`: the new state, the `PUT` request it issued (if
any), the bus message it published (if any), and whether it returned
normally (`false` = the awaited `putFile` rejected and the error
propagated). -/
structure SaveResult where
  state : AppState
  wrote : Option WriteReq
  published : Option BCMessage
  ok : Bool
deriving DecidableEq, Repr

/-- Source `saveActive()` from `App.tsx`.  `putOk` is whether the awaited
`putFile` succeeded; `now` is `Date.now()`. -/
def saveActive (s : AppState) (putOk : Bool) (now : Nat) : SaveResult :=
  match activeDoc s with
  | none => { state := s, wrote := none, published := none, ok := true }
  | some a =>
    if a.readOnly then { state := s, wrote := none, published := none, ok := true }
    else if !a.dirty then { state := s, wrote := none, published := none, ok := true }
    else
      let req : WriteReq :=
        { path := a.path, body := a.text,
          contentType := "text/plain; charset=utf-8", lockToken := a.lockToken }
      if putOk then
        { state := { s with docs := s.docs.map (fun d =>
            if d.path == a.path then { d with dirty := false, stale := false } else d) }
          wrote := some req
          published := some { path := a.path, who := CURRENT_USER_ID, time := now }
          ok := true }
      else
        { state := s, wrote := some req, published := none, ok := false }

/-- Phase 1 of the `file-saved` bus handler: map over the docs, marking
dirty docs with the saved path as `stale`, and record whether any doc with
that path needs a reload (`needsReload`). -/
def busMark : List OpenDoc → String → List OpenDoc × Bool
  | [], _ => ([], false)
  | d :: ds, target =>
    let (rest, nr) := busMark ds target
    if d.path != target then (d :: rest, nr)
    else if d.dirty then ({ d with stale := true } :: rest, nr)
    else (d :: rest, true)

/-- Phase 2 of the `file-saved` bus handler: after a successful refetch,
replace the buffer of every doc with the saved path that is clean or
read-only. -/
def busReload (docs : List OpenDoc) (target fresh : String) : List OpenDoc :=
  docs.map (fun d =>
    if d.path == target && (!d.dirty || d.readOnly) then
      { d with text := fresh, stale := false, dirty := false }
    else d)

/-- The `bus.listen` handler in `App` for a `file-saved` message.  `fetch`
is the `getFile(msg.path)` outcome, consulted only when a reload is needed;
a failed fetch (`none`) is swallowed by the handler's `catch`. -/
def busFileSaved (s : AppState) (msg : BCMessage) (fetch : Option String) :
    AppState :=
  let (docs1, needsReload) := busMark s.docs msg.path
  let docs2 :=
    if needsReload then
      match fetch with
      | some fresh => busReload docs1 msg.path fresh
      | none => docs1
    else docs1
  { s with docs := docs2 }

/-- Source `refreshTab(path)` from `App.tsx`.  `confirmDiscard` is the user's
answer to the discard prompt (asked only when dirty); `fetch` is the
`getFile` outcome — on failure the function aborts with no state change. -/
def refreshTab (s : AppState) (path : String) (confirmDiscard : Bool)
    (fetch : Option String) : AppState :=
  match s.docs.find? (fun d => d.path == path) with
  | none => s
  | some doc =>
    if doc.dirty && !confirmDiscard then s
    else
      match fetch with
      | some fresh =>
        { s with docs := s.docs.map (fun d =>
            if d.path == path then
              { d with text := fresh, stale := false, dirty := false }
            else d) }
      | none => s

/-- Source `refreshCleanStale` from the focus/visibility lifecycle handler:
refetch every `stale && !dirty` doc sequentially, ignoring per-doc fetch
failures. -/
def focusRefresh (s : AppState) (fetches : String → Option String) : AppState :=
  let targets := (s.docs.filter (fun d => d.stale && !d.dirty)).map (fun d => d.path)
  targets.foldl (fun st p =>
    match fetches p with
    | some fresh =>
      { st with docs := st.docs.map (fun d =>
          if d.path == p then
            { d with text := fresh, stale := false, dirty := false }
          else d) }
    | none => st) s

/-- Result of `close`: the new state, the best-effort save `PUT` issued from
the close prompt (if any), the `unlock` request attempted (if any), and the
beacon unlocks issued. -/
structure CloseResult where
  state : AppState
  savedWrite : Option WriteReq
  releaseReq : Option (String × String)
  beacons : List (String × String)
deriving DecidableEq, Repr

/-- Source `close(path)` from `App.tsx`.  `confirmSave` answers the save prompt
(asked only when dirty and not read-only); the result of that best-effort
`putFile` is swallowed either way.  `releaseOk` is whether the awaited
`unlockPath` succeeded; on failure the catch issues one `beaconUnlock` and
the finally clears the saved token in both cases. -/
def close (s : AppState) (path : String) (confirmSave releaseOk : Bool) :
    CloseResult :=
  match s.docs.find? (fun d => d.path == path) with
  | none => { state := s, savedWrite := none, releaseReq := none, beacons := [] }
  | some doc =>
    let savedWrite : Option WriteReq :=
      if doc.dirty && !doc.readOnly && confirmSave then
        some { path := doc.path, body := doc.text,
               contentType := "text/plain; charset=utf-8",
               lockToken := doc.lockToken }
      else none
    let hasLock := doc.lockToken.isSome && !doc.readOnly
    let releaseReq : Option (String × String) :=
      if hasLock then doc.lockToken.map (fun t => (doc.path, t)) else none
    let beacons : List (String × String) :=
      if hasLock && !releaseOk then
        match doc.lockToken with
        | some t => [(doc.path, t)]
        | none => []
      else []
    let cache' := if hasLock then clearSavedToken s.tokenCache path else s.tokenCache
    let docs' := s.docs.filter (fun d => d.path != path)
    let active' :=
      if s.activePath == some path then docs'.head?.map (fun d => d.path)
      else s.activePath
    { state := { s with docs := docs', activePath := active', tokenCache := cache' }
      savedWrite := savedWrite
      releaseReq := releaseReq
      beacons := beacons }

/-- Source `activate(path)`: switch the active tab. -/
def activate (s : AppState) (path : String) : AppState :=
  { s with activePath := some path }

/-- Closing the lock dialog (`Modal onClose`). -/
def closeLockDlg (s : AppState) : AppState :=
  { s with lockDlg := { isOpen := false, path := "", owner := none } }

/-- Source `getBase().then(setBaseUrl)` on mount. -/
def setBase (s : AppState) (base : String) : AppState :=
  { s with baseUrl := base }

/-! ## Helper lemmas about the token cache, `openInTab`, and the bus handler -/

theorem readSavedToken_clear (c : List (String × String)) (p : String) :
    readSavedToken (clearSavedToken c p) p = none := by
  unfold readSavedToken clearSavedToken
  rw [show (c.filter (fun e => e.1 != p)).find? (fun e => e.1 == p) = none from ?_]
  · rfl
  · rw [List.find?_eq_none]
    intro e he
    have := (List.mem_filter.mp he).2
    simp only [bne_iff_ne, ne_eq, decide_eq_true_eq] at this
    simpa using this

theorem readSavedToken_write (c : List (String × String)) (p t : String) :
    readSavedToken (writeSavedToken c p t) p = some t := by
  unfold readSavedToken writeSavedToken
  simp

/-- Characterization of `busMark`: phase 1 maps a dirty doc with the target
path to its `stale` copy, and `needsReload` holds iff some doc with the
target path is clean. -/
theorem busMark_eq (docs : List OpenDoc) (target : String) :
    busMark docs target
      = (docs.map (fun d =>
            if d.path == target && d.dirty then { d with stale := true } else d),
         docs.any (fun d => d.path == target && !d.dirty)) := by
  induction docs with
  | nil => rfl
  | cons d ds ih =>
    simp only [busMark, ih, List.map_cons, List.any_cons]
    by_cases hp : d.path == target
    · have h1 : (d.path != target) = false := by simp [bne, hp]
      by_cases hd : d.dirty
      · have h2 : (d.path == target && d.dirty) = true := by simp [hp, hd]
        have h3 : (d.path == target && !d.dirty) = false := by simp [hd]
        simp [h1, hd, h2, h3]
        rw [if_pos (by simpa using hp)]
      · have h2 : (d.path == target && d.dirty) = false := by simp [hd]
        have h3 : (d.path == target && !d.dirty) = true := by simp [hp, hd]
        simp [h1, hd, h2, h3]
        exact Or.inl (by simpa using hp)
    · have h1 : (d.path != target) = true := by simp [bne, hp]
      have h2 : (d.path == target && d.dirty) = false := by simp [hp]
      have h3 : (d.path == target && !d.dirty) = false := by simp [hp]
      simp [h1, h2, h3]

/-- After `openInTabDocs`, the first doc with the opened path is the fresh
or refreshed one: given `text`, clean, and carrying the given token and
read-only flag. -/
theorem openInTabDocs_find (docs : List OpenDoc) (path text : String)
    (lang : Lang) (name url : String) (tok : Option String) (ro : Bool) :
    ∃ d', (openInTabDocs docs path text lang name url tok ro).find?
              (fun d => d.path == path) = some d'
        ∧ d'.path = path ∧ d'.text = text ∧ d'.dirty = false
        ∧ d'.lockToken = tok ∧ d'.readOnly = ro := by
  induction docs with
  | nil =>
    refine ⟨{ path := path, name := name, text := text, lang := lang, url := url,
              dirty := false, lockToken := tok, readOnly := ro, stale := false },
            ?_, rfl, rfl, rfl, rfl, rfl⟩
    simp [openInTabDocs]
  | cons d ds ih =>
    by_cases hp : d.path == path
    · refine ⟨{ d with
                text := text, lang := lang, url := url, dirty := false,
                lockToken := tok, readOnly := ro },
              ?_, by simpa using hp, rfl, rfl, rfl, rfl⟩
      simp [openInTabDocs, hp]
    · obtain ⟨d', hfind, hprops⟩ := ih
      refine ⟨d', ?_, hprops⟩
      simp [openInTabDocs, hp, hfind]

/-- If a doc with the opened path was already present, `openInTabDocs`
replaces it in place (same position, same length), resetting `dirty`,
`lockToken` and `readOnly` and discarding its old text. -/
theorem openInTabDocs_find_replace (docs : List OpenDoc) (path text : String)
    (lang : Lang) (name url : String) (tok : Option String) (ro : Bool)
    (old : OpenDoc) (h : docs.find? (fun d => d.path == path) = some old) :
    (openInTabDocs docs path text lang name url tok ro).find?
        (fun d => d.path == path)
      = some { old with
               text := text, lang := lang, url := url, dirty := false,
               lockToken := tok, readOnly := ro }
    ∧ (openInTabDocs docs path text lang name url tok ro).length = docs.length := by
  induction docs with
  | nil => simp at h
  | cons d ds ih =>
    by_cases hp : d.path == path
    · rw [List.find?_cons_of_pos (p := fun x => x.path == path) ds hp] at h
      obtain rfl : d = old := by simpa using h
      constructor
      · simp [openInTabDocs, hp]
      · simp [openInTabDocs, hp]
    · rw [List.find?_cons_of_neg (p := fun x => x.path == path) ds
        (by simpa using hp)] at h
      obtain ⟨h1, h2⟩ := ih h
      constructor
      · simpa [openInTabDocs, hp] using h1
      · simp [openInTabDocs, hp, h2]

/-- In a store whose paths are distinct (the keyed-by-path store invariant),
two member docs with the same path are the same doc. -/
theorem doc_unique_of_nodup {s : List OpenDoc}
    (hnd : (s.map OpenDoc.path).Nodup) {d d' : OpenDoc}
    (hd : d ∈ s) (hd' : d' ∈ s) (hp : d.path = d'.path) : d = d' :=
  List.inj_on_of_nodup_map hnd hd hd' hp

/-- In a path-distinct store, `find?`-by-path returns exactly the member doc
with that path. -/
theorem find_eq_of_mem_nodup {s : List OpenDoc}
    (hnd : (s.map OpenDoc.path).Nodup) {d : OpenDoc} {p : String}
    (hd : d ∈ s) (hp : d.path = p) :
    s.find? (fun x => x.path == p) = some d := by
  have hsome : (s.find? (fun x => x.path == p)).isSome :=
    List.find?_isSome.mpr ⟨d, hd, by simp [hp]⟩
  obtain ⟨x, hx⟩ := Option.isSome_iff_exists.mp hsome
  have hxmem := List.mem_of_find?_eq_some hx
  have hxp : x.path = p := by simpa using List.find?_some hx
  have : x = d := doc_unique_of_nodup hnd hxmem hd (hxp.trans hp.symm)
  rw [hx, this]

/-- Lemma: `find?`-by-path commutes with mapping a path-preserving function over
the store. -/
theorem find?_path_map (docs : List OpenDoc) (p : String) (f : OpenDoc → OpenDoc)
    (hf : ∀ d, (f d).path = d.path) :
    (docs.map f).find? (fun x => x.path == p)
      = (docs.find? (fun x => x.path == p)).map f := by
  rw [List.find?_map]
  have hcomp : ((fun x : OpenDoc => x.path == p) ∘ f)
      = fun x : OpenDoc => x.path == p := by
    funext x
    simp [Function.comp, hf]
  rw [hcomp]

/-! ## Theorems for the claims -/

/-- C1: when a `file-saved` bus message arrives for the path of a dirty
session (in a store keyed by path), the handler leaves the session's content
buffer unchanged and sets its `stale` flag — regardless of whether a reload
fetch would succeed.  No silent overwrite of unsaved local edits. -/
theorem fileSaved_dirty_keeps_buffer (s : AppState) (msg : BCMessage)
    (fetch : Option String) (d : OpenDoc)
    (hnd : (s.docs.map OpenDoc.path).Nodup)
    (hd : d ∈ s.docs) (hp : d.path = msg.path) (hdirty : d.dirty = true) :
    (busFileSaved s msg fetch).docs.find? (fun x => x.path == msg.path)
      = some { d with stale := true } := by
  have hany : s.docs.any (fun x => x.path == msg.path && !x.dirty) = false := by
    rw [Bool.eq_false_iff]
    intro hcon
    rw [List.any_eq_true] at hcon
    obtain ⟨x, hx, hxp⟩ := hcon
    rw [Bool.and_eq_true] at hxp
    have hxpath : x.path = msg.path := by simpa using hxp.1
    have hxd : x = d := doc_unique_of_nodup hnd hx hd (hxpath.trans hp.symm)
    rw [hxd, hdirty] at hxp
    simp at hxp
  unfold busFileSaved
  rw [busMark_eq]
  simp only [hany, Bool.false_eq_true, if_false]
  rw [find?_path_map _ _ _ (fun x => by split <;> rfl),
    find_eq_of_mem_nodup hnd hd hp]
  simp [hp, hdirty]

/-- C1 witness: a concrete dirty session keeps its buffer and turns stale. -/
theorem fileSaved_dirty_keeps_buffer_witness :
    (busFileSaved
        { baseUrl := "B"
          docs := [{ path := "p", name := "p", text := "local", lang := .text,
                     url := "u", dirty := true, lockToken := some "T",
                     readOnly := false, stale := false }]
          activePath := some "p"
          lockDlg := { isOpen := false, path := "", owner := none }
          tokenCache := [] }
        { path := "p", who := "B", time := 7 } (some "fresh")).docs.find?
        (fun x => x.path == "p")
      = some { path := "p", name := "p", text := "local", lang := .text,
               url := "u", dirty := true, lockToken := some "T",
               readOnly := false, stale := true } :=
  fileSaved_dirty_keeps_buffer
    { baseUrl := "B"
      docs := [{ path := "p", name := "p", text := "local", lang := .text,
                 url := "u", dirty := true, lockToken := some "T",
                 readOnly := false, stale := false }]
      activePath := some "p"
      lockDlg := { isOpen := false, path := "", owner := none }
      tokenCache := [] }
    { path := "p", who := "B", time := 7 } (some "fresh")
    { path := "p", name := "p", text := "local", lang := .text, url := "u",
      dirty := true, lockToken := some "T", readOnly := false, stale := false }
    (by decide) (by decide) rfl rfl

/-- C4 counterexample: a session can be `readOnly` and `dirty` at the same
time (open a locked path read-only, then mutate it through `setDocText`,
which the editor is wired to) — it then satisfies the claim's
"clean (not dirty) or read-only" precondition, a `file-saved` message for
its path arrives and the refetch would succeed with `"fresh"`, yet the
handler keeps the local buffer and sets `stale := true` instead of
installing the fresh content with `stale = false`: the dirty check takes
precedence over `readOnly`. -/
theorem fileSaved_readOnly_dirty_cex :
    let s := setDocText (openFilePath (initState []) "a"
        { locked := true, owner := some "Bob", token := none }
        { token := "", owner := "", timeout := 0 } "remote").state "a"
        "local-edit"
    (s.docs.map (fun d => (d.readOnly, d.dirty)) = [(true, true)])
    ∧ ((busFileSaved s { path := "a", who := "Bob", time := 1 }
          (some "fresh")).docs.map (fun d => (d.text, d.stale, d.dirty))
        = [("local-edit", true, true)]) := by
  decide

/-- C4 (amended): when a `file-saved` bus message arrives for the path of a
session that is not dirty (clean, whether editable or read-only) in a store
keyed by path, and the refetch succeeds, the handler replaces the session's
buffer with the fresh remote content and clears `stale` and `dirty`. -/
theorem fileSaved_clean_reloaded (s : AppState) (msg : BCMessage)
    (fresh : String) (d : OpenDoc)
    (hnd : (s.docs.map OpenDoc.path).Nodup)
    (hd : d ∈ s.docs) (hp : d.path = msg.path) (hclean : d.dirty = false) :
    (busFileSaved s msg (some fresh)).docs.find? (fun x => x.path == msg.path)
      = some { d with text := fresh, stale := false, dirty := false } := by
  have hany : s.docs.any (fun x => x.path == msg.path && !x.dirty) = true :=
    List.any_eq_true.mpr ⟨d, hd, by simp [hp, hclean]⟩
  unfold busFileSaved
  rw [busMark_eq]
  simp only [hany, if_true]
  unfold busReload
  rw [find?_path_map _ _ _ (fun x => by split <;> rfl),
    find?_path_map _ _ _ (fun x => by split <;> rfl),
    find_eq_of_mem_nodup hnd hd hp]
  simp [hp, hclean]

/-- C4 (amended) witness: a clean read-only doc gets the fresh content. -/
theorem fileSaved_clean_reloaded_witness :
    (busFileSaved
        { baseUrl := "B"
          docs := [{ path := "p", name := "p", text := "old", lang := .text,
                     url := "u", dirty := false, lockToken := none,
                     readOnly := true, stale := false }]
          activePath := some "p"
          lockDlg := { isOpen := false, path := "", owner := none }
          tokenCache := [] }
        { path := "p", who := "B", time := 7 } (some "fresh")).docs.find?
        (fun x => x.path == "p")
      = some { path := "p", name := "p", text := "fresh", lang := .text,
               url := "u", dirty := false, lockToken := none,
               readOnly := true, stale := false } :=
  fileSaved_clean_reloaded
    { baseUrl := "B"
      docs := [{ path := "p", name := "p", text := "old", lang := .text,
                 url := "u", dirty := false, lockToken := none,
                 readOnly := true, stale := false }]
      activePath := some "p"
      lockDlg := { isOpen := false, path := "", owner := none }
      tokenCache := [] }
    { path := "p", who := "B", time := 7 } "fresh"
    { path := "p", name := "p", text := "old", lang := .text, url := "u",
      dirty := false, lockToken := none, readOnly := true, stale := false }
    (by decide) (by decide) rfl rfl

/-- C5: `saveActive` is a no-op — no write request, no store change, no bus
publish — unless the active session is dirty and not read-only; when it is
dirty and editable and the write succeeds, it clears `dirty` and `stale` on
that session and publishes a `file-saved` message carrying the path, the
caller's user id and the timestamp. -/
theorem saveActive_spec (s : AppState) (putOk : Bool) (now : Nat) :
    ((∀ a, activeDoc s = some a → a.dirty = false ∨ a.readOnly = true) →
       saveActive s putOk now
         = { state := s, wrote := none, published := none, ok := true })
  ∧ (∀ a, activeDoc s = some a → a.dirty = true → a.readOnly = false →
      putOk = true →
        (saveActive s putOk now).published
          = some { path := a.path, who := CURRENT_USER_ID, time := now }
      ∧ (saveActive s putOk now).ok = true
      ∧ ∀ d ∈ (saveActive s putOk now).state.docs,
          d.path = a.path → d.dirty = false ∧ d.stale = false) := by
  constructor
  · intro hnoop
    unfold saveActive
    cases hA : activeDoc s with
    | none => rfl
    | some a =>
      rcases hnoop a hA with h | h
      · rcases hro : a.readOnly with _ | _
        · simp [h, hro]
        · simp [hro]
      · simp [h]
  · intro a hA hdirty hro hput
    have hred : saveActive s putOk now
        = { state := { s with docs := s.docs.map (fun d =>
              if d.path == a.path then { d with dirty := false, stale := false }
              else d) }
            wrote := some { path := a.path, body := a.text,
                            contentType := "text/plain; charset=utf-8",
                            lockToken := a.lockToken }
            published := some { path := a.path, who := CURRENT_USER_ID, time := now }
            ok := true } := by
      unfold saveActive
      rw [hA]
      simp [hro, hdirty, hput]
    rw [hred]
    refine ⟨rfl, rfl, ?_⟩
    intro d hd hdp
    simp only [List.mem_map] at hd
    obtain ⟨x, _, hx⟩ := hd
    by_cases hxa : (x.path == a.path) = true
    · rw [if_pos hxa] at hx
      rw [← hx]
      exact ⟨rfl, rfl⟩
    · rw [if_neg hxa] at hx
      rw [← hx] at hdp
      exact absurd (by simp [hdp]) hxa

/-- C5 witness: saving a dirty editable doc publishes the message and clears
the flags (extracted at a concrete state). -/
theorem saveActive_spec_witness :
    (saveActive
        { baseUrl := "B"
          docs := [{ path := "p", name := "p", text := "body", lang := .text,
                     url := "u", dirty := true, lockToken := some "T",
                     readOnly := false, stale := true }]
          activePath := some "p"
          lockDlg := { isOpen := false, path := "", owner := none }
          tokenCache := [("p", "T")] }
        true 5).published
      = some { path := "p", who := CURRENT_USER_ID, time := 5 } :=
  ((saveActive_spec
      { baseUrl := "B"
        docs := [{ path := "p", name := "p", text := "body", lang := .text,
                   url := "u", dirty := true, lockToken := some "T",
                   readOnly := false, stale := true }]
        activePath := some "p"
        lockDlg := { isOpen := false, path := "", owner := none }
        tokenCache := [("p", "T")] }
      true 5).2
    { path := "p", name := "p", text := "body", lang := .text, url := "u",
      dirty := true, lockToken := some "T", readOnly := false, stale := true }
    (by decide) rfl rfl rfl).1

/-- C6: when the write issued by `saveActive` fails, the whole state —
content, `dirty`, `stale` — is untouched, exactly one write request was
issued and no `file-saved` message is published; the error propagates
(`ok = false`), with no retry. -/
theorem saveActive_failure (s : AppState) (now : Nat) (a : OpenDoc)
    (hA : activeDoc s = some a) (hdirty : a.dirty = true)
    (hro : a.readOnly = false) :
    saveActive s false now
      = { state := s
          wrote := some { path := a.path, body := a.text,
                          contentType := "text/plain; charset=utf-8",
                          lockToken := a.lockToken }
          published := none
          ok := false } := by
  unfold saveActive
  rw [hA]
  simp [hro, hdirty]

/-- C6 witness: a failed save at a concrete dirty editable state. -/
theorem saveActive_failure_witness :
    saveActive
        { baseUrl := "B"
          docs := [{ path := "p", name := "p", text := "body", lang := .text,
                     url := "u", dirty := true, lockToken := some "T",
                     readOnly := false, stale := true }]
          activePath := some "p"
          lockDlg := { isOpen := false, path := "", owner := none }
          tokenCache := [("p", "T")] }
        false 9
      = { state :=
            { baseUrl := "B"
              docs := [{ path := "p", name := "p", text := "body", lang := .text,
                         url := "u", dirty := true, lockToken := some "T",
                         readOnly := false, stale := true }]
              activePath := some "p"
              lockDlg := { isOpen := false, path := "", owner := none }
              tokenCache := [("p", "T")] }
          wrote := some { path := "p", body := "body",
                          contentType := "text/plain; charset=utf-8",
                          lockToken := some "T" }
          published := none
          ok := false } :=
  saveActive_failure
    { baseUrl := "B"
      docs := [{ path := "p", name := "p", text := "body", lang := .text,
                 url := "u", dirty := true, lockToken := some "T",
                 readOnly := false, stale := true }]
      activePath := some "p"
      lockDlg := { isOpen := false, path := "", owner := none }
      tokenCache := [("p", "T")] }
    9
    { path := "p", name := "p", text := "body", lang := .text, url := "u",
      dirty := true, lockToken := some "T", readOnly := false, stale := true }
    (by decide) rfl rfl

/-- C2: whenever `lockInfo` reports the path locked — whether by the caller
elsewhere or by another owner — `openFilePath` opens it read-only: the
resulting session has `readOnly = true` and no `lockToken`, the lock dialog
is raised showing the owner (via `ownerDisplay`), any cached token for the
path is cleared from the persisted cache, and no acquire is attempted. -/
theorem openFilePath_locked (s : AppState) (path : String) (info : LockInfoResp)
    (acq : LockResp) (content : String) (hl : info.locked = true) :
    (∃ d', (openFilePath s path info acq content).state.docs.find?
              (fun d => d.path == path) = some d'
        ∧ d'.readOnly = true ∧ d'.lockToken = none ∧ d'.text = content)
  ∧ (openFilePath s path info acq content).state.lockDlg
      = { isOpen := true, path := path, owner := some (ownerDisplay info.owner) }
  ∧ readSavedToken (openFilePath s path info acq content).state.tokenCache path
      = none
  ∧ (openFilePath s path info acq content).acquired = none := by
  unfold openFilePath
  rw [if_pos hl]
  refine ⟨?_, rfl, readSavedToken_clear _ _, rfl⟩
  obtain ⟨d', h1, _, h3, h4, h5, h6⟩ :=
    openInTabDocs_find s.docs path content (detectLang path) (docName path)
      (collapseUrl (s.baseUrl ++ "/" ++ path)) none true
  exact ⟨d', h1, h6, h5, h3⟩

/-- C2 witness: opening a path locked by another owner at a concrete state. -/
theorem openFilePath_locked_witness :
    (openFilePath (initState [("a", "stray")]) "a"
        { locked := true, owner := some "Bob", token := some "X" }
        { token := "", owner := "", timeout := 0 } "body").state.lockDlg
      = { isOpen := true, path := "a", owner := some "Bob" } :=
  ((openFilePath_locked (initState [("a", "stray")]) "a"
      { locked := true, owner := some "Bob", token := some "X" }
      { token := "", owner := "", timeout := 0 } "body" rfl).2.1).trans
    (by decide)

/-- C7: whenever `lockInfo` reports the path unlocked, `openFilePath`
issues an acquire for `(path, CURRENT_USER_ID)`, normalizes the returned
token with `normalizeToken` (angle brackets stripped, whitespace trimmed),
persists the normalized token in the per-path cache, and creates an
editable, clean session holding that token with the fetched content. -/
theorem openFilePath_unlocked (s : AppState) (path : String)
    (info : LockInfoResp) (acq : LockResp) (content t : String)
    (hl : info.locked = false)
    (ht : presentToken (normalizeToken (some acq.token)) = some t) :
    (openFilePath s path info acq content).acquired
      = some (path, CURRENT_USER_ID)
  ∧ readSavedToken (openFilePath s path info acq content).state.tokenCache path
      = some t
  ∧ ∃ d', (openFilePath s path info acq content).state.docs.find?
              (fun d => d.path == path) = some d'
        ∧ d'.readOnly = false ∧ d'.dirty = false ∧ d'.lockToken = some t
        ∧ d'.text = content := by
  unfold openFilePath
  rw [if_neg (by simp [hl]), ht]
  refine ⟨rfl, readSavedToken_write _ _ _, ?_⟩
  obtain ⟨d', h1, _, h3, h4, h5, h6⟩ :=
    openInTabDocs_find s.docs path content (detectLang path) (docName path)
      (collapseUrl (s.baseUrl ++ "/" ++ path)) (some t) false
  exact ⟨d', h1, h6, h4, h5, h3⟩

/-- C7 witness: opening an unlocked path with a token that normalizes to
`"T1"`. -/
theorem openFilePath_unlocked_witness :
    readSavedToken (openFilePath (initState []) "a"
        { locked := false, owner := none, token := none }
        { token := " <T1> ", owner := "ARajuv", timeout := 60 }
        "body").state.tokenCache "a"
      = some "T1" :=
  (openFilePath_unlocked (initState []) "a"
      { locked := false, owner := none, token := none }
      { token := " <T1> ", owner := "ARajuv", timeout := 60 } "body" "T1"
      rfl (by decide)).2.1

/-- C3: closing a session that holds a lock token and is not read-only
leaves no token cached for the path whether the release succeeded or
failed; a failed release issues the beacon unlock exactly once; and the
session is removed from the store in every case. -/
theorem close_spec (s : AppState) (path : String) (doc : OpenDoc) (tok : String)
    (hfind : s.docs.find? (fun d => d.path == path) = some doc)
    (htok : doc.lockToken = some tok) (hro : doc.readOnly = false)
    (confirmSave releaseOk : Bool) :
    readSavedToken (close s path confirmSave releaseOk).state.tokenCache path
      = none
  ∧ (releaseOk = false →
      (close s path confirmSave releaseOk).beacons = [(path, tok)])
  ∧ (releaseOk = true → (close s path confirmSave releaseOk).beacons = [])
  ∧ (close s path confirmSave releaseOk).state.docs.find?
      (fun d => d.path == path) = none := by
  have hdocpath : doc.path = path := by simpa using List.find?_some hfind
  have hasLock : (doc.lockToken.isSome && !doc.readOnly) = true := by
    simp [htok, hro]
  unfold close
  rw [hfind]
  refine ⟨?_, ?_, ?_, ?_⟩
  · show readSavedToken
      (if doc.lockToken.isSome && !doc.readOnly then
        clearSavedToken s.tokenCache path else s.tokenCache) path = none
    rw [if_pos hasLock]
    exact readSavedToken_clear _ _
  · intro hrel
    show (if doc.lockToken.isSome && !doc.readOnly && !releaseOk then
        match doc.lockToken with
        | some t => [(doc.path, t)]
        | none => [] else []) = [(path, tok)]
    rw [if_pos (by simp [htok, hro, hrel]), htok, hdocpath]
  · intro hrel
    show (if doc.lockToken.isSome && !doc.readOnly && !releaseOk then
        match doc.lockToken with
        | some t => [(doc.path, t)]
        | none => [] else []) = []
    rw [if_neg (by simp [hrel])]
  · show (s.docs.filter (fun d => d.path != path)).find?
        (fun d => d.path == path) = none
    rw [List.find?_eq_none]
    intro x hx
    have hxp := (List.mem_filter.mp hx).2
    simp only [bne_iff_ne, ne_eq, decide_eq_true_eq] at hxp
    simpa using hxp

/-- C3 witness: closing a concrete locked editable session with a failing
release. -/
theorem close_spec_witness :
    readSavedToken (close
        { baseUrl := "B"
          docs := [{ path := "p", name := "p", text := "body", lang := .text,
                     url := "u", dirty := false, lockToken := some "T",
                     readOnly := false, stale := false }]
          activePath := some "p"
          lockDlg := { isOpen := false, path := "", owner := none }
          tokenCache := [("p", "T")] }
        "p" false false).state.tokenCache "p" = none
  ∧ (close
        { baseUrl := "B"
          docs := [{ path := "p", name := "p", text := "body", lang := .text,
                     url := "u", dirty := false, lockToken := some "T",
                     readOnly := false, stale := false }]
          activePath := some "p"
          lockDlg := { isOpen := false, path := "", owner := none }
          tokenCache := [("p", "T")] }
        "p" false false).beacons = [("p", "T")] :=
  have h := close_spec
    { baseUrl := "B"
      docs := [{ path := "p", name := "p", text := "body", lang := .text,
                 url := "u", dirty := false, lockToken := some "T",
                 readOnly := false, stale := false }]
      activePath := some "p"
      lockDlg := { isOpen := false, path := "", owner := none }
      tokenCache := [("p", "T")] }
    "p"
    { path := "p", name := "p", text := "body", lang := .text, url := "u",
      dirty := false, lockToken := some "T", readOnly := false, stale := false }
    "T" (by decide) rfl rfl false false
  ⟨h.1, h.2.1 rfl⟩

/-- C8 counterexample: a local content mutation on a read-only session is
NOT rejected.  `setDocText` — the function the editor's `onChange` is wired
to in both variants of `App` — carries no read-only guard: on a session
opened read-only it replaces the text and sets `dirty := true`. -/
theorem setDocText_readOnly_cex :
    let s := (openFilePath (initState []) "a"
        { locked := true, owner := some "Bob", token := none }
        { token := "", owner := "", timeout := 0 } "remote").state
    (s.docs.map (fun d => (d.readOnly, d.dirty, d.text))
        = [(true, false, "remote")])
    ∧ ((setDocText s "a" "edited").docs.map
          (fun d => (d.readOnly, d.dirty, d.text))
        = [(true, true, "edited")]) := by
  decide

/-- C8 (amended): a mutation through `setActiveText` (the `files.ts` `App`
variant) on a read-only active session is rejected as a no-op, while
`setDocText` applies the mutation — new text, `dirty = true` — to the
session with the given path regardless of its `readOnly` flag; in
particular a non-read-only session gets the new text and turns dirty. -/
theorem textMutation_spec (s : AppState) (path val : String) :
    (∀ a, activeDoc s = some a → a.readOnly = true → setActiveText s val = s)
  ∧ (∀ d ∈ s.docs, d.path = path →
      { d with text := val, dirty := true } ∈ (setDocText s path val).docs) := by
  constructor
  · intro a hA hro
    unfold setActiveText
    rw [hA]
    simp [hro]
  · intro d hd hdp
    unfold setDocText
    simp only [List.mem_map]
    exact ⟨d, hd, by simp [hdp]⟩

/-- C8 (amended) witness: the read-only no-op through `setActiveText` at a
concrete state. -/
theorem textMutation_spec_witness :
    setActiveText
        { baseUrl := "B"
          docs := [{ path := "p", name := "p", text := "body", lang := .text,
                     url := "u", dirty := false, lockToken := none,
                     readOnly := true, stale := false }]
          activePath := some "p"
          lockDlg := { isOpen := false, path := "", owner := none }
          tokenCache := [] }
        "edited"
      = { baseUrl := "B"
          docs := [{ path := "p", name := "p", text := "body", lang := .text,
                     url := "u", dirty := false, lockToken := none,
                     readOnly := true, stale := false }]
          activePath := some "p"
          lockDlg := { isOpen := false, path := "", owner := none }
          tokenCache := [] } :=
  (textMutation_spec
      { baseUrl := "B"
        docs := [{ path := "p", name := "p", text := "body", lang := .text,
                   url := "u", dirty := false, lockToken := none,
                   readOnly := true, stale := false }]
        activePath := some "p"
        lockDlg := { isOpen := false, path := "", owner := none }
        tokenCache := [] }
      "p" "edited").1
    { path := "p", name := "p", text := "body", lang := .text, url := "u",
      dirty := false, lockToken := none, readOnly := true, stale := false }
    (by decide) rfl

/-- C10: opening a path that already has a session in the store makes
`openInTab` replace that session in place — fresh text, `dirty` reset to
`false`, `lockToken` and `readOnly` overwritten with the new open's values
— silently discarding whatever unsaved text the old session held (no
prompt exists on this path; the store keeps its size). -/
theorem openInTab_replaces (s : AppState) (path text : String)
    (tok : Option String) (ro : Bool) (old : OpenDoc)
    (h : s.docs.find? (fun d => d.path == path) = some old) :
    (openInTab s path text tok ro).docs.find? (fun d => d.path == path)
      = some { old with
               text := text, lang := detectLang path,
               url := collapseUrl (s.baseUrl ++ "/" ++ path), dirty := false,
               lockToken := tok, readOnly := ro }
  ∧ (openInTab s path text tok ro).docs.length = s.docs.length := by
  exact openInTabDocs_find_replace s.docs path text (detectLang path)
    (docName path) (collapseUrl (s.baseUrl ++ "/" ++ path)) tok ro old h

/-- C10 witness: re-opening a path over a dirty editable session at a
concrete state discards the unsaved text `"unsaved"`. -/
theorem openInTab_replaces_witness :
    (openInTab
        { baseUrl := ""
          docs := [{ path := "a", name := "a", text := "unsaved",
                     lang := .text, url := "/a", dirty := true,
                     lockToken := some "T", readOnly := false, stale := false }]
          activePath := some "a"
          lockDlg := { isOpen := false, path := "", owner := none }
          tokenCache := [] }
        "a" "fresh" none true).docs.find? (fun d => d.path == "a")
      = some { path := "a", name := "a", text := "fresh",
               lang := detectLang "a", url := collapseUrl ("" ++ "/" ++ "a"),
               dirty := false, lockToken := none, readOnly := true,
               stale := false } :=
  (openInTab_replaces
      { baseUrl := ""
        docs := [{ path := "a", name := "a", text := "unsaved", lang := .text,
                   url := "/a", dirty := true, lockToken := some "T",
                   readOnly := false, stale := false }]
        activePath := some "a"
        lockDlg := { isOpen := false, path := "", owner := none }
        tokenCache := [] }
      "a" "fresh" none true
      { path := "a", name := "a", text := "unsaved", lang := .text,
        url := "/a", dirty := true, lockToken := some "T", readOnly := false,
        stale := false }
      (by decide)).1

/-! ## The read-only/no-token invariant (C9) -/

/-- The data-model invariant of the spec: a read-only session never holds a
lock token. -/
def ReadOnlyNoToken (s : AppState) : Prop :=
  ∀ d ∈ s.docs, d.readOnly = true → d.lockToken = none

/-- The states a tab can reach: the initial state (with whatever persisted
token cache survived a reload) closed under every coordinator operation,
with arbitrary environment responses. -/
inductive Reachable : AppState → Prop where
  | init (cache : List (String × String)) : Reachable (initState cache)
  | base {s : AppState} (b : String) :
      Reachable s → Reachable (setBase s b)
  | openFile {s : AppState} (path : String) (info : LockInfoResp)
      (acq : LockResp) (content : String) :
      Reachable s → Reachable (openFilePath s path info acq content).state
  | edit {s : AppState} (path text : String) :
      Reachable s → Reachable (setDocText s path text)
  | editActive {s : AppState} (val : String) :
      Reachable s → Reachable (setActiveText s val)
  | save {s : AppState} (putOk : Bool) (now : Nat) :
      Reachable s → Reachable (saveActive s putOk now).state
  | bus {s : AppState} (msg : BCMessage) (fetch : Option String) :
      Reachable s → Reachable (busFileSaved s msg fetch)
  | refresh {s : AppState} (path : String) (c : Bool) (fetch : Option String) :
      Reachable s → Reachable (refreshTab s path c fetch)
  | focus {s : AppState} (fetches : String → Option String) :
      Reachable s → Reachable (focusRefresh s fetches)
  | closeTab {s : AppState} (path : String) (c r : Bool) :
      Reachable s → Reachable (close s path c r).state
  | switch {s : AppState} (path : String) :
      Reachable s → Reachable (activate s path)
  | dlg {s : AppState} : Reachable s → Reachable (closeLockDlg s)

/-- Mapping a function that never touches `readOnly`/`lockToken` over the
store preserves the invariant. -/
theorem inv_map {docs : List OpenDoc} (f : OpenDoc → OpenDoc)
    (hf : ∀ d, (f d).readOnly = d.readOnly ∧ (f d).lockToken = d.lockToken)
    (h : ∀ d ∈ docs, d.readOnly = true → d.lockToken = none) :
    ∀ d ∈ docs.map f, d.readOnly = true → d.lockToken = none := by
  intro d hd hro
  rw [List.mem_map] at hd
  obtain ⟨x, hx, rfl⟩ := hd
  rw [(hf x).2]
  exact h x hx (by rw [← (hf x).1]; exact hro)

/-- Lemma: `openInTabDocs` preserves the invariant provided the inserted flags do
(read-only opens carry no token; editable opens may). -/
theorem inv_openInTabDocs (docs : List OpenDoc) (path text : String)
    (lang : Lang) (name url : String) (tok : Option String) (ro : Bool)
    (hro : ro = true → tok = none)
    (h : ∀ d ∈ docs, d.readOnly = true → d.lockToken = none) :
    ∀ d ∈ openInTabDocs docs path text lang name url tok ro,
      d.readOnly = true → d.lockToken = none := by
  induction docs with
  | nil =>
    intro d hd hdro
    simp only [openInTabDocs, List.mem_singleton] at hd
    subst hd
    exact hro hdro
  | cons x xs ih =>
    intro d hd hdro
    by_cases hp : (x.path == path) = true
    · rw [show openInTabDocs (x :: xs) path text lang name url tok ro
          = { x with
              text := text, lang := lang, url := url, dirty := false,
              lockToken := tok, readOnly := ro } :: xs from by
        simp [openInTabDocs, hp]] at hd
      rcases List.mem_cons.mp hd with rfl | hd
      · exact hro hdro
      · exact h d (List.mem_cons_of_mem _ hd) hdro
    · rw [show openInTabDocs (x :: xs) path text lang name url tok ro
          = x :: openInTabDocs xs path text lang name url tok ro from by
        simp [openInTabDocs, hp]] at hd
      rcases List.mem_cons.mp hd with rfl | hd
      · exact h _ (List.mem_cons_self _ _) hdro
      · exact ih (fun d' hd' => h d' (List.mem_cons_of_mem _ hd')) d hd hdro

theorem inv_openFilePath (s : AppState) (path : String) (info : LockInfoResp)
    (acq : LockResp) (content : String) (h : ReadOnlyNoToken s) :
    ReadOnlyNoToken (openFilePath s path info acq content).state := by
  unfold openFilePath
  by_cases hl : info.locked = true
  · rw [if_pos hl]
    exact inv_openInTabDocs s.docs path content _ _ _ none true
      (fun _ => rfl) h
  · rw [if_neg hl]
    cases ht : presentToken (normalizeToken (some acq.token)) with
    | none =>
      exact inv_openInTabDocs s.docs path content _ _ _ none false
        (fun hc => (Bool.false_ne_true hc).elim) h
    | some t =>
      exact inv_openInTabDocs s.docs path content _ _ _ (some t) false
        (fun hc => (Bool.false_ne_true hc).elim) h

theorem inv_setDocText (s : AppState) (path text : String)
    (h : ReadOnlyNoToken s) : ReadOnlyNoToken (setDocText s path text) :=
  inv_map _ (fun d => ⟨by split <;> rfl, by split <;> rfl⟩) h

theorem inv_setActiveText (s : AppState) (val : String)
    (h : ReadOnlyNoToken s) : ReadOnlyNoToken (setActiveText s val) := by
  unfold setActiveText
  cases activeDoc s with
  | none => exact h
  | some a =>
    dsimp only
    by_cases hro : a.readOnly = true
    · rw [if_pos hro]
      exact h
    · rw [if_neg hro]
      exact inv_map _ (fun d => ⟨by split <;> rfl, by split <;> rfl⟩) h

theorem inv_saveActive (s : AppState) (putOk : Bool) (now : Nat)
    (h : ReadOnlyNoToken s) : ReadOnlyNoToken (saveActive s putOk now).state := by
  unfold saveActive
  cases activeDoc s with
  | none => exact h
  | some a =>
    dsimp only
    by_cases hro : a.readOnly = true
    · rw [if_pos hro]
      exact h
    · rw [if_neg hro]
      by_cases hd : (!a.dirty) = true
      · rw [if_pos hd]
        exact h
      · rw [if_neg hd]
        by_cases hp : putOk = true
        · rw [if_pos hp]
          exact inv_map _ (fun d => ⟨by split <;> rfl, by split <;> rfl⟩) h
        · rw [if_neg hp]
          exact h

theorem inv_busFileSaved (s : AppState) (msg : BCMessage)
    (fetch : Option String) (h : ReadOnlyNoToken s) :
    ReadOnlyNoToken (busFileSaved s msg fetch) := by
  unfold busFileSaved
  rw [busMark_eq]
  dsimp only
  have hmark : ReadOnlyNoToken { s with docs := s.docs.map (fun d =>
      if d.path == msg.path && d.dirty then { d with stale := true } else d) } :=
    inv_map _ (fun d => ⟨by split <;> rfl, by split <;> rfl⟩) h
  by_cases hnr : (s.docs.any fun d => d.path == msg.path && !d.dirty) = true
  · rw [if_pos hnr]
    cases fetch with
    | none => exact hmark
    | some fresh =>
      unfold busReload
      exact inv_map _ (fun d => ⟨by split <;> rfl, by split <;> rfl⟩) hmark
  · rw [if_neg hnr]
    exact hmark

theorem inv_refreshTab (s : AppState) (path : String) (c : Bool)
    (fetch : Option String) (h : ReadOnlyNoToken s) :
    ReadOnlyNoToken (refreshTab s path c fetch) := by
  unfold refreshTab
  cases s.docs.find? (fun d => d.path == path) with
  | none => exact h
  | some doc =>
    dsimp only
    by_cases hd : (doc.dirty && !c) = true
    · rw [if_pos hd]
      exact h
    · rw [if_neg hd]
      cases fetch with
      | none => exact h
      | some fresh =>
        exact inv_map _ (fun d => ⟨by split <;> rfl, by split <;> rfl⟩) h

theorem inv_focus_fold (fetches : String → Option String) :
    ∀ (targets : List String) (st : AppState), ReadOnlyNoToken st →
      ReadOnlyNoToken (targets.foldl (fun st p =>
        match fetches p with
        | some fresh => { st with docs := st.docs.map (fun d =>
            if d.path == p then
              { d with text := fresh, stale := false, dirty := false }
            else d) }
        | none => st) st)
  | [], _, h => h
  | p :: ps, st, h => by
    simp only [List.foldl_cons]
    apply inv_focus_fold fetches ps
    cases hf : fetches p with
    | none =>
      simp only [hf]
      exact h
    | some fresh =>
      simp only [hf]
      exact inv_map _ (fun d => ⟨by split <;> rfl, by split <;> rfl⟩) h

theorem inv_focusRefresh (s : AppState) (fetches : String → Option String)
    (h : ReadOnlyNoToken s) : ReadOnlyNoToken (focusRefresh s fetches) := by
  unfold focusRefresh
  exact inv_focus_fold fetches _ s h

theorem inv_close (s : AppState) (path : String) (c r : Bool)
    (h : ReadOnlyNoToken s) : ReadOnlyNoToken (close s path c r).state := by
  unfold close
  cases s.docs.find? (fun d => d.path == path) with
  | none => exact h
  | some doc =>
    intro d hd hro
    exact h d (List.mem_filter.mp hd).1 hro

/-- C9: in every reachable state of the store — through open, edit, save,
`file-saved` reception, refresh, focus reconciliation, tab switching and
close — a session with `readOnly = true` never holds a `lockToken`. -/
theorem readOnly_sessions_hold_no_token (s : AppState) (hs : Reachable s) :
    ReadOnlyNoToken s := by
  induction hs with
  | init cache => intro d hd _; simp [initState] at hd
  | base b _ ih => exact ih
  | openFile path info acq content _ ih => exact inv_openFilePath _ _ _ _ _ ih
  | edit path text _ ih => exact inv_setDocText _ _ _ ih
  | editActive val _ ih => exact inv_setActiveText _ _ ih
  | save putOk now _ ih => exact inv_saveActive _ _ _ ih
  | bus msg fetch _ ih => exact inv_busFileSaved _ _ _ ih
  | refresh path c fetch _ ih => exact inv_refreshTab _ _ _ _ ih
  | focus fetches _ ih => exact inv_focusRefresh _ _ ih
  | closeTab path c r _ ih => exact inv_close _ _ _ _ ih
  | switch path _ ih => exact ih
  | dlg _ ih => exact ih

/-- C9 witness: the read-only session created by opening a locked path from
the initial state holds no token. -/
theorem readOnly_sessions_hold_no_token_witness :
    ({ path := "a", name := docName "a", text := "body",
       lang := detectLang "a", url := collapseUrl ("" ++ "/" ++ "a"),
       dirty := false, lockToken := none, readOnly := true,
       stale := false } : OpenDoc).lockToken = none :=
  readOnly_sessions_hold_no_token
    (openFilePath (initState []) "a"
      { locked := true, owner := some "Bob", token := none }
      { token := "", owner := "", timeout := 0 } "body").state
    (Reachable.openFile "a"
      { locked := true, owner := some "Bob", token := none }
      { token := "", owner := "", timeout := 0 } "body" (Reachable.init []))
    { path := "a", name := docName "a", text := "body",
      lang := detectLang "a", url := collapseUrl ("" ++ "/" ++ "a"),
      dirty := false, lockToken := none, readOnly := true, stale := false }
    (List.mem_singleton.mpr rfl) rfl

end Kaplan
